import Mathlib

/-!
Shallow embedding of the GSAP animation preset system
(preset expander, breakpoint resolver, responsive value cache,
exclusion evaluator) and proofs about the claims of its specification.

The embedding mirrors the JavaScript source:
* JSON preset values are modelled by `JVal` (strings, numbers as exact
  rationals, booleans, objects as association lists; JSON `null` and
  arrays do not occur in preset documents and are omitted).
* JavaScript numbers are modelled by exact rationals; every numeric
  literal appearing in the claims is exactly representable, so the
  model agrees with IEEE doubles on all inputs used here.
* `parseFloat` is modelled by `jsParseFloat` following the ECMAScript
  grammar for string-to-number conversion (leading whitespace, optional
  sign, `Infinity`, decimal digits with optional fraction and exponent,
  longest valid prefix); `NaN` is represented by `none`.
* DOM elements are modelled by their attribute map `String → Option String`;
  `setAttribute` coerces values to strings via `jsToString`.
* The module-level mutable cell `currentBreakpoint` and the
  `responsiveValueCache` map-of-maps become an explicit state `RState`
  threaded through the resolver functions; the viewport width
  (`window.innerWidth`) is an explicit argument.
-/

/-- JavaScript runtime values stored in the responsive value cache and
returned by `getResponsiveValue` / `shouldExcludeAnimation`:
numbers (as exact rationals), the two infinities, strings and booleans. -/
inductive JSValue where
  | num (q : ℚ)
  | inf (neg : Bool)
  | str (s : String)
  | bool (b : Bool)
deriving DecidableEq, Repr

/-- JSON values occurring in preset documents. -/
inductive JVal where
  | str (s : String)
  | num (q : ℚ)
  | bool (b : Bool)
  | obj (fields : List (String × JVal))
deriving Repr

/-- Characters treated as whitespace by `parseFloat`. -/
def jsWhitespace (c : Char) : Bool :=
  c == ' ' || c == '\t' || c == '\n' || c == '\r'

/-- Decimal digits of a character list read as a natural number. -/
def digitsToNat (l : List Char) : ℕ :=
  l.foldl (fun a c => a * 10 + (c.toNat - 48)) 0

/-- Model of JavaScript `String.prototype.split` with a single-character
separator: `"".split(sep)` is `[""]`, separators delimit (possibly empty)
fields. -/
def jsSplit (s : String) (sep : Char) : List String :=
  (s.data.foldr
    (fun c acc =>
      match acc with
      | cur :: rest => if c = sep then [] :: cur :: rest else (c :: cur) :: rest
      | [] => [[c]])
    [[]]).map String.mk

/-- Model of JavaScript `String.prototype.trim` (ASCII whitespace). -/
def jsTrim (s : String) : String :=
  String.mk (((s.data.dropWhile jsWhitespace).reverse.dropWhile jsWhitespace).reverse)

/-- Does the character list start with the literal `Infinity`? -/
def startsWithInfinity : List Char → Bool
  | 'I' :: 'n' :: 'f' :: 'i' :: 'n' :: 'i' :: 't' :: 'y' :: _ => true
  | _ => false

/-- Model of JavaScript `parseFloat`: longest valid numeric prefix after
optional whitespace and sign; `none` models `NaN`. -/
def jsParseFloat (s : String) : Option JSValue :=
  let l := s.data.dropWhile jsWhitespace
  let signAndRest : Bool × List Char :=
    match l with
    | '-' :: r => (true, r)
    | '+' :: r => (false, r)
    | r => (false, r)
  let neg := signAndRest.1
  let l1 := signAndRest.2
  if startsWithInfinity l1 then some (.inf neg)
  else
    let intD := l1.takeWhile Char.isDigit
    let r1 := l1.dropWhile Char.isDigit
    let fracAndRest : List Char × List Char :=
      match r1 with
      | '.' :: r2 => (r2.takeWhile Char.isDigit, r2.dropWhile Char.isDigit)
      | _ => ([], r1)
    let fracD := fracAndRest.1
    let r3 := fracAndRest.2
    if intD.isEmpty && fracD.isEmpty then none
    else
      let expPart : Bool × List Char :=
        match r3 with
        | 'e' :: '-' :: r4 => (true, r4.takeWhile Char.isDigit)
        | 'e' :: '+' :: r4 => (false, r4.takeWhile Char.isDigit)
        | 'e' :: r4 => (false, r4.takeWhile Char.isDigit)
        | 'E' :: '-' :: r4 => (true, r4.takeWhile Char.isDigit)
        | 'E' :: '+' :: r4 => (false, r4.takeWhile Char.isDigit)
        | 'E' :: r4 => (false, r4.takeWhile Char.isDigit)
        | _ => (false, [])
      let m : ℕ := digitsToNat (intD ++ fracD)
      let eN : ℕ := digitsToNat expPart.2
      let q : ℚ :=
        if expPart.1 then Rat.divInt (Int.ofNat m) (Int.ofNat (10 ^ (fracD.length + eN)))
        else Rat.divInt (Int.ofNat (m * 10 ^ eN)) (Int.ofNat (10 ^ fracD.length))
      some (.num (if neg then Rat.neg q else q))

/-- Decimal digits of the fractional part `r / den`, stopping when the
remainder reaches zero (finite decimals print exactly; JSON literals are
always finite decimals). -/
def fracDigits : ℕ → ℕ → ℕ → List Char
  | 0, _, _ => []
  | _ + 1, _, 0 => []
  | fuel + 1, den, r =>
    if r = 0 then []
    else Nat.digitChar (r * 10 / den) :: fracDigits fuel den (r * 10 % den)

/-- Decimal string of a nonnegative rational, as JavaScript number
`toString` prints it for the magnitudes occurring here. -/
def ratToDecimalString (q : ℚ) : String :=
  let ip : ℕ := q.num.toNat / q.den
  let r : ℕ := q.num.toNat % q.den
  let frac := fracDigits 40 q.den r
  if frac.isEmpty then Nat.repr ip else Nat.repr ip ++ "." ++ String.mk frac

/-- Model of JavaScript string coercion as performed by `setAttribute`. -/
def jsToString : JVal → String
  | .str s => s
  | .num q => if q.num < 0 then "-" ++ ratToDecimalString (Rat.neg q) else ratToDecimalString q
  | .bool b => if b then "true" else "false"
  | .obj _ => "[object Object]"

/-- Model of JavaScript truthiness for the values of `JVal`. -/
def jsTruthy : JVal → Bool
  | .str s => !(s == "")
  | .num q => decide (q ≠ 0)
  | .bool b => b
  | .obj _ => true

/-- Property lookup on a JSON object (JSON object keys are unique, so the
first match is the only one). Lookup on a non-object yields `undefined`. -/
def lookupField (fs : List (String × JVal)) (k : String) : Option JVal :=
  (fs.find? (fun kv => kv.1 == k)).map (fun kv => kv.2)

/-- JavaScript property access `v[k]`, `none` modelling `undefined`. -/
def jsGet (v : JVal) (k : String) : Option JVal :=
  match v with
  | .obj fs => lookupField fs k
  | _ => none

/-- `Object.entries` for the values of `JVal`. -/
def jsEntries (v : JVal) : List (String × JVal) :=
  match v with
  | .obj fs => fs
  | _ => []

/-! ### Breakpoint resolver (`BREAKPOINTS`, `getCurrentBreakpoint`) -/

/-- The four named breakpoints. -/
inductive Bp where
  | desktop
  | tablet
  | mobileL
  | mobileP
deriving DecidableEq, Repr, Fintype

/-- JavaScript name of a breakpoint. -/
def bpName : Bp → String
  | .desktop => "desktop"
  | .tablet => "tablet"
  | .mobileL => "mobile-l"
  | .mobileP => "mobile-p"

/-- Width range and cascade order of a breakpoint (`max = none` models
`Infinity`). -/
structure BpRange where
  min : ℕ
  max : Option ℕ
  order : ℕ
deriving DecidableEq, Repr

/-- The `BREAKPOINTS` table of the source. -/
def BREAKPOINTS : Bp → BpRange
  | .desktop => ⟨992, none, 4⟩
  | .tablet => ⟨768, some 991, 3⟩
  | .mobileL => ⟨480, some 767, 2⟩
  | .mobileP => ⟨0, some 479, 1⟩

/-- `Object.entries(BREAKPOINTS)` iteration order (insertion order). -/
def bpEntriesOrder : List Bp := [.desktop, .tablet, .mobileL, .mobileP]

/-- Key lookup `BREAKPOINTS[name]`, used by the exclusion evaluator. -/
def bpOfName (s : String) : Option Bp :=
  if s = "desktop" then some .desktop
  else if s = "tablet" then some .tablet
  else if s = "mobile-l" then some .mobileL
  else if s = "mobile-p" then some .mobileP
  else none

/-- The loop condition `width >= range.min && width <= range.max`. -/
def inRangeB (b : Bp) (w : ℕ) : Bool :=
  decide ((BREAKPOINTS b).min ≤ w) &&
    (match (BREAKPOINTS b).max with
     | some m => decide (w ≤ m)
     | none => true)

/-- The classification loop of `getCurrentBreakpoint`: first breakpoint in
iteration order whose range contains the width. -/
def computeBp (w : ℕ) : Option Bp :=
  bpEntriesOrder.find? (fun b => inRangeB b w)

/-- Explicit state for the module-level mutable cells: the memoized
`currentBreakpoint` and the `responsiveValueCache` (flattened from a
map-of-maps to element id × cache key). -/
structure RState where
  currentBreakpoint : Option Bp
  cache : ℕ → String → Option JSValue

/-- The state with no memoized breakpoint and an empty cache. -/
def RState.initial : RState := ⟨none, fun _ _ => none⟩

/-- `getCurrentBreakpoint`: return the memoized breakpoint if set,
otherwise classify the width (memoizing the result), with `desktop` as
defensive fallback. -/
def getCurrentBreakpoint (w : ℕ) (s : RState) : Bp × RState :=
  match s.currentBreakpoint with
  | some bp => (bp, s)
  | none =>
    match computeBp w with
    | some bp => (bp, { s with currentBreakpoint := some bp })
    | none => (.desktop, { s with currentBreakpoint := some .desktop })

/-- `elementCache.set(cacheKey, v)` on the flattened cache. -/
def cacheSet (s : RState) (eid : ℕ) (k : String) (v : JSValue) : RState :=
  { s with cache := fun e' k' => if e' = eid ∧ k' = k then some v else s.cache e' k' }

/-- `responsiveValueCache.clear()`. -/
def cacheClear (s : RState) : RState :=
  { s with cache := fun _ _ => none }

/-- `isNaN(parseFloat(v)) ? v : parseFloat(v)`. -/
def parseAttrValue (v : String) : JSValue :=
  match jsParseFloat v with
  | some n => n
  | none => .str v

/-- `getResponsiveValue(element, paramName, defaultValue)`: cached lookup
with priority breakpoint-specific attribute → generic attribute →
caller-supplied default. -/
def getResponsiveValue (w : ℕ) (eid : ℕ) (attrs : String → Option String)
    (paramName : String) (defaultValue : JSValue) (s : RState) : JSValue × RState :=
  let bps := getCurrentBreakpoint w s
  let bp := bps.1
  let s1 := bps.2
  let cacheKey := paramName ++ "_" ++ bpName bp
  match s1.cache eid cacheKey with
  | some v => (v, s1)
  | none =>
    match attrs ("data-gsap-" ++ paramName ++ "-" ++ bpName bp) with
    | some bv =>
      let v := parseAttrValue bv
      (v, cacheSet s1 eid cacheKey v)
    | none =>
      match attrs ("data-gsap-" ++ paramName) with
      | some sv =>
        let v := parseAttrValue sv
        (v, cacheSet s1 eid cacheKey v)
      | none => (defaultValue, cacheSet s1 eid cacheKey defaultValue)

/-- `shouldExcludeAnimation(element)`: cached exclusion check combining the
comma-list `data-gsap-exclude` cascade with the legacy per-breakpoint
attribute. On a cache hit the raw cached value is returned. -/
def shouldExcludeAnimation (w : ℕ) (eid : ℕ) (attrs : String → Option String)
    (s : RState) : JSValue × RState :=
  let bps := getCurrentBreakpoint w s
  let bp := bps.1
  let s1 := bps.2
  let breakpointOrder := (BREAKPOINTS bp).order
  let cacheKey := "exclude_" ++ bpName bp
  match s1.cache eid cacheKey with
  | some v => (v, s1)
  | none =>
    let newFormatHit :=
      match attrs "data-gsap-exclude" with
      | some ex =>
        if ex == "" then false
        else
          ((jsSplit ex ',').map jsTrim).any fun nm =>
            match bpOfName nm with
            | some b => decide ((BREAKPOINTS b).order ≥ breakpointOrder)
            | none => false
      | none => false
    if newFormatHit then (.bool true, cacheSet s1 eid cacheKey (.bool true))
    else if (attrs ("data-gsap-exclude-" ++ bpName bp)).isSome then
      (.bool true, cacheSet s1 eid cacheKey (.bool true))
    else (.bool false, cacheSet s1 eid cacheKey (.bool false))

/-- The debounced resize handler body (after the 250ms settle delay):
recompute the breakpoint via the memoizing `getCurrentBreakpoint`, and only
on a difference update the memo, clear the cache and call
`ScrollTrigger.refresh()` (the returned flag records that call). -/
def resizeSettle (w : ℕ) (s : RState) : RState × Bool :=
  let bps := getCurrentBreakpoint w s
  let newBreakpoint := bps.1
  let s1 := bps.2
  if some newBreakpoint ≠ s1.currentBreakpoint then
    ({ currentBreakpoint := some newBreakpoint, cache := fun _ _ => none }, true)
  else (s1, false)

/-- The orientation-change handler body (after the 350ms delay): re-read the
breakpoint via the memoizing `getCurrentBreakpoint`, clear the cache
unconditionally and call `ScrollTrigger.refresh()`. -/
def orientationSettle (w : ℕ) (s : RState) : RState × Bool :=
  let bps := getCurrentBreakpoint w s
  ({ currentBreakpoint := some bps.1, cache := fun _ _ => none }, true)

/-- `setupResponsiveListeners` first memoizes the current breakpoint. -/
def setupListeners (w : ℕ) (s : RState) : RState :=
  (getCurrentBreakpoint w s).2

/-! ### Preset expander -/

/-- A DOM element, modelled by its attribute map. -/
structure Elem where
  attrs : String → Option String

instance : Inhabited Elem := ⟨⟨fun _ => none⟩⟩

/-- `element.setAttribute(k, v)`. -/
def setAttr (k v : String) (e : Elem) : Elem :=
  ⟨fun k' => if k' = k then some v else e.attrs k'⟩

/-- The `breakpoints` list of the expander. -/
def breakpoints : List String := ["desktop", "tablet", "mobile-l", "mobile-p"]

/-- Category-selector attribute name, e.g. `data-gsap-view` for the
category `view`. -/
def catAttr (c : String) : String := "data-gsap-" ++ c

/-- One step of `key.replace(/([A-Z])/g, '-$1').toLowerCase()` (the source
only ever feeds ASCII keys, where Lean's `Char.toLower` agrees with
JavaScript `toLowerCase`). -/
def kebabChar (c : Char) : List Char :=
  if c.isUpper then ['-', c.toLower] else [c]

/-- `toDataAttr(key)`: camelCase to kebab-case with the `data-gsap-` prefix. -/
def toDataAttr (key : String) : String :=
  "data-gsap-" ++ String.mk (key.data.flatMap kebabChar)

/-- The nested writes of a breakpoint-keyed sub-object: one attribute per
nested key, named by the nested key suffixed with the breakpoint name. -/
def applyNestedWrites (fs : List (String × JVal)) (bp : String) (e : Elem) : Elem :=
  fs.foldl (fun e' bkv => setAttr (toDataAttr (bkv.1 ++ "-" ++ bp)) (jsToString bkv.2) e') e

/-- The body of the per-parameter `Object.entries(preset).forEach` loop:
skip `split` and `exclude`, protect an existing trigger attribute, expand a
recognized breakpoint key with object value into suffixed attributes, and
write any other key directly. -/
def processEntry (e : Elem) (kv : String × JVal) : Elem :=
  if kv.1 = "split" then e
  else if kv.1 = "exclude" then e
  else if kv.1 = "trigger" ∧ (e.attrs "data-gsap-trigger").isSome then e
  else if kv.1 ∈ breakpoints then
    match kv.2 with
    | .obj fs => applyNestedWrites fs kv.1 e
    | _ => e
  else setAttr (toDataAttr kv.1) (jsToString kv.2) e

/-- The conditional `split` marker write (`preset.split === true`). -/
def splitStep (p : JVal) (e : Elem) : Elem :=
  match jsGet p "split" with
  | some (.bool true) => setAttr "data-gsap-split" "true" e
  | _ => e

/-- The conditional `exclude` attribute write (`if (preset.exclude)`). -/
def excludeStep (p : JVal) (e : Elem) : Elem :=
  match jsGet p "exclude" with
  | some v => if jsTruthy v then setAttr "data-gsap-exclude" (jsToString v) e else e
  | none => e

/-- Application of one preset to one element: the `split` marker, the
`exclude` attribute, then the parameter loop. -/
def processElem (p : JVal) (e : Elem) : Elem :=
  (jsEntries p).foldl processEntry (excludeStep p (splitStep p e))

/-- Processing of one element for one animation category: if the element
carries the category-selector attribute and the named preset exists (and is
truthy), apply the preset; otherwise leave the element unchanged (a missing
preset warns and skips). -/
def passElem (cat : String) (group : JVal) (e : Elem) : Elem :=
  match e.attrs (catAttr cat) with
  | none => e
  | some name =>
    match jsGet group name with
    | none => e
    | some p => if jsTruthy p then processElem p e else e

/-- The whole preset expander: fold over the top-level categories in
document order, each category processing every element currently carrying
its selector attribute. -/
def runExpander (doc : List (String × JVal)) (dom : List Elem) : List Elem :=
  doc.foldl (fun d cg => d.map (passElem cg.1 cg.2)) dom

/-! ### Write descriptions of the expander (for the idempotence analysis)

These pure functions describe, per preset, which attribute names a pass can
write and which value the last write to a given attribute carries. They are
related to the stateful expander by lemmas below. -/

/-- Attribute names a single parameter entry can write. -/
def entryTargets (kv : String × JVal) : List String :=
  if kv.1 = "split" ∨ kv.1 = "exclude" then []
  else if kv.1 ∈ breakpoints then
    match kv.2 with
    | .obj fs => fs.map (fun bkv => toDataAttr (bkv.1 ++ "-" ++ kv.1))
    | _ => []
  else [toDataAttr kv.1]

/-- Attribute names an application of the preset `p` can write
(a superset: the `split`, `exclude` and `trigger` writes are conditional). -/
def writeTargets (p : JVal) : List String :=
  "data-gsap-split" :: "data-gsap-exclude" :: (jsEntries p).flatMap entryTargets

/-- Attribute names any preset of the group `g` can write. -/
def groupTargets (g : JVal) : List String :=
  (jsEntries g).flatMap (fun np => writeTargets np.2)

/-- A preset document is expander-safe when no preset of the document can
write a category-selector attribute of the document. The counterexample to
the unrestricted idempotence claim violates exactly this condition. -/
def ExpanderSafe (doc : List (String × JVal)) : Prop :=
  ∀ cg ∈ doc, ∀ cg' ∈ doc, catAttr cg.1 ∉ groupTargets cg'.2

instance (doc : List (String × JVal)) : Decidable (ExpanderSafe doc) := by
  unfold ExpanderSafe
  infer_instance

/-- Value of the last write to attribute `k` among the nested writes of a
breakpoint-keyed sub-object. -/
def lastNested : List (String × JVal) → String → String → Option String
  | [], _, _ => none
  | bkv :: rest, bp, k =>
    (lastNested rest bp k).or
      (if k = toDataAttr (bkv.1 ++ "-" ++ bp) then some (jsToString bkv.2) else none)

/-- Value of the last write of one parameter entry to attribute `k`
(for `k` other than the trigger attribute this is independent of the
trigger guard). -/
def entryWriteNT (kv : String × JVal) (k : String) : Option String :=
  if kv.1 = "split" ∨ kv.1 = "exclude" then none
  else if kv.1 ∈ breakpoints then
    match kv.2 with
    | .obj fs => lastNested fs kv.1 k
    | _ => none
  else if k = toDataAttr kv.1 then some (jsToString kv.2) else none

/-- Value of the last write of the parameter loop to attribute `k`. -/
def entriesLastNT : List (String × JVal) → String → Option String
  | [], _ => none
  | kv :: rest, k => (entriesLastNT rest k).or (entryWriteNT kv k)

/-- The conditional `split` marker write. -/
def splitWriteNT (p : JVal) (k : String) : Option String :=
  match jsGet p "split" with
  | some (.bool true) => if k = "data-gsap-split" then some "true" else none
  | _ => none

/-- The conditional `exclude` attribute write. -/
def excludeWriteNT (p : JVal) (k : String) : Option String :=
  match jsGet p "exclude" with
  | some v =>
    if jsTruthy v then (if k = "data-gsap-exclude" then some (jsToString v) else none) else none
  | none => none

/-- Value of the last write of a whole preset application to attribute `k`
(parameter loop wins over the `exclude` write, which wins over `split`). -/
def presetLastNT (p : JVal) (k : String) : Option String :=
  (entriesLastNT (jsEntries p) k).or ((excludeWriteNT p k).or (splitWriteNT p k))

/-- Value of the last write of one category pass to attribute `k`, given the
value of the element's category-selector attribute. -/
def passWriteNT (group : JVal) (nameOpt : Option String) (k : String) : Option String :=
  match nameOpt with
  | none => none
  | some nm =>
    match jsGet group nm with
    | none => none
    | some p => if jsTruthy p then presetLastNT p k else none

/-- Value of the last write of a full expander run to attribute `k`, given
the element's attribute map (consulted only at category-selector names). -/
def runLastNT : List (String × JVal) → (String → Option String) → String → Option String
  | [], _, _ => none
  | cg :: rest, f, k => (runLastNT rest f k).or (passWriteNT cg.2 (f (catAttr cg.1)) k)

/-- Value of the first `trigger` entry of a parameter list. -/
def firstTrigVal (entries : List (String × JVal)) : Option String :=
  (entries.find? (fun kv => kv.1 == "trigger")).map (fun kv => jsToString kv.2)

/-- The trigger value a preset application writes when the element carries
no trigger attribute yet. -/
def presetTrig (p : JVal) : Option String := firstTrigVal (jsEntries p)

/-- The trigger value one category pass writes when the element carries no
trigger attribute yet. -/
def passTrig (group : JVal) (nameOpt : Option String) : Option String :=
  match nameOpt with
  | none => none
  | some nm =>
    match jsGet group nm with
    | none => none
    | some p => if jsTruthy p then presetTrig p else none

/-- The trigger value a full run writes when the element starts without a
trigger attribute: the first pass that writes one wins. -/
def runFirstTrig : List (String × JVal) → (String → Option String) → Option String
  | [], _ => none
  | cg :: rest, f => (passTrig cg.2 (f (catAttr cg.1))).or (runFirstTrig rest f)

/-- The action of a full expander run on a single element. -/
def elemRun (ps : List (String × JVal)) (e : Elem) : Elem :=
  ps.foldl (fun e' cg => passElem cg.1 cg.2 e') e

/-! ### Concrete documents and elements used by the claims -/

/-- The `fadeUp` preset of the end-to-end scenario. -/
def fadeUpPreset : JVal :=
  .obj [("up", .bool true), ("start-y", .num 40), ("tablet", .obj [("start-y", .num 20)])]

/-- The preset document of the end-to-end scenario. -/
def presetDocC5 : List (String × JVal) := [("view", .obj [("fadeUp", fadeUpPreset)])]

/-- An element tagged `data-gsap-view="fadeUp"` and nothing else. -/
def elemC5 : Elem := ⟨fun k => if k = "data-gsap-view" then some "fadeUp" else none⟩

/-- A preset document on which the expander is not idempotent: the `init`
preset of the second category writes the category-selector attribute
`data-gsap-view` of the first category, so a second run matches (and
expands) an element the first run's `view` pass did not. -/
def cexDocC7 : List (String × JVal) :=
  [("view", .obj [("fadeUp", .obj [("start-y", .num 40)])]),
   ("init", .obj [("a", .obj [("view", .str "fadeUp")])])]

/-- An element tagged only `data-gsap-init="a"`. -/
def cexElemC7 : Elem := ⟨fun k => if k = "data-gsap-init" then some "a" else none⟩

/-- A preset whose key `tablet` names a recognized breakpoint but carries a
non-object value. -/
def cexDocC9 : List (String × JVal) := [("view", .obj [("x", .obj [("tablet", .num 5)])])]

/-- An element tagged only `data-gsap-view="x"`. -/
def cexElemC9 : Elem := ⟨fun k => if k = "data-gsap-view" then some "x" else none⟩

/-! ### Basic lemmas about elements and attribute names -/

theorem Elem.ext_attrs {a b : Elem} (h : a.attrs = b.attrs) : a = b := by
  cases a
  cases b
  exact congrArg Elem.mk h

theorem setAttr_attrs (a v : String) (e : Elem) (k : String) :
    (setAttr a v e).attrs k = if k = a then some v else e.attrs k := rfl

theorem setAttr_attrs_or (a v : String) (e : Elem) (k : String) :
    (setAttr a v e).attrs k = (if k = a then some v else none).or (e.attrs k) := by
  by_cases h : k = a
  · simp [setAttr, h]
  · simp [setAttr, h]

theorem flatMap_kebab_no_hyphen :
    ∀ l : List Char, '-' ∉ l.flatMap kebabChar → l.flatMap kebabChar = l := by
  intro l
  induction l with
  | nil => intro _; rfl
  | cons c rest ih =>
    intro h
    rw [List.flatMap_cons] at h ⊢
    by_cases hc : c.isUpper
    · exact absurd (by simp [kebabChar, hc]) (fun hm => h hm)
    · have h2 : '-' ∉ rest.flatMap kebabChar := fun hm => h (List.mem_append.mpr (Or.inr hm))
      simp [kebabChar, hc, ih h2]

theorem hyphen_mem_flatMap_kebab (l : List Char) (h : '-' ∈ l) : '-' ∈ l.flatMap kebabChar :=
  List.mem_flatMap.mpr ⟨'-', h, by simp [kebabChar]⟩

theorem toDataAttr_data (k : String) :
    (toDataAttr k).data = "data-gsap-".data ++ k.data.flatMap kebabChar := by
  simp [toDataAttr, String.data_append]

theorem toDataAttr_eq_trigger {k : String} (h : toDataAttr k = "data-gsap-trigger") :
    k = "trigger" := by
  have hd := congrArg String.data h
  rw [toDataAttr_data] at hd
  have h10 : "data-gsap-trigger".data = "data-gsap-".data ++ "trigger".data := by decide
  rw [h10] at hd
  have h2 := List.append_cancel_left hd
  have h3 : '-' ∉ "trigger".data := by decide
  rw [← h2] at h3
  have h4 := flatMap_kebab_no_hyphen k.data h3
  exact String.ext (h4 ▸ h2)

theorem toDataAttr_append_ne_trigger (a b : String) :
    toDataAttr (a ++ "-" ++ b) ≠ "data-gsap-trigger" := by
  intro h
  have h1 := toDataAttr_eq_trigger h
  have h2 : '-' ∈ (a ++ "-" ++ b).data := by
    rw [String.data_append, String.data_append]
    exact List.mem_append.mpr (Or.inl (List.mem_append.mpr (Or.inr (by decide))))
  rw [h1] at h2
  exact absurd h2 (by decide)

/-! ### Characterization of the expander writes -/

theorem applyNestedWrites_attrs :
    ∀ (fs : List (String × JVal)) (bp : String) (e : Elem) (k : String),
      (applyNestedWrites fs bp e).attrs k = (lastNested fs bp k).or (e.attrs k) := by
  intro fs
  induction fs with
  | nil => intro bp e k; rfl
  | cons bkv rest ih =>
    intro bp e k
    have hstep : applyNestedWrites (bkv :: rest) bp e =
        applyNestedWrites rest bp (setAttr (toDataAttr (bkv.1 ++ "-" ++ bp)) (jsToString bkv.2) e) := rfl
    rw [hstep, ih, setAttr_attrs_or, ← Option.or_assoc]
    rfl

theorem splitStep_attrs (p : JVal) (e : Elem) (k : String) :
    (splitStep p e).attrs k = (splitWriteNT p k).or (e.attrs k) := by
  unfold splitStep splitWriteNT
  rcases jsGet p "split" with _ | v
  · rfl
  · rcases v with s | q | b | fs
    · rfl
    · rfl
    · cases b
      · rfl
      · rw [setAttr_attrs_or]
    · rfl

theorem excludeStep_attrs (p : JVal) (e : Elem) (k : String) :
    (excludeStep p e).attrs k = (excludeWriteNT p k).or (e.attrs k) := by
  unfold excludeStep excludeWriteNT
  rcases jsGet p "exclude" with _ | v
  · rfl
  · dsimp only
    by_cases ht : jsTruthy v
    · rw [if_pos ht, if_pos ht, setAttr_attrs_or]
    · rw [if_neg ht, if_neg ht]
      rfl

theorem lastNested_eq_none :
    ∀ (fs : List (String × JVal)) (bp k : String),
      (∀ bkv ∈ fs, k ≠ toDataAttr (bkv.1 ++ "-" ++ bp)) → lastNested fs bp k = none := by
  intro fs
  induction fs with
  | nil => intro bp k _; rfl
  | cons bkv rest ih =>
    intro bp k h
    show (lastNested rest bp k).or _ = none
    rw [ih bp k (fun x hx => h x (List.mem_cons.mpr (Or.inr hx))),
        if_neg (h bkv (List.mem_cons.mpr (Or.inl rfl)))]
    rfl

theorem splitWriteNT_ne (p : JVal) {k : String} (h : k ≠ "data-gsap-split") :
    splitWriteNT p k = none := by
  unfold splitWriteNT
  rcases jsGet p "split" with _ | v
  · rfl
  · rcases v with s | q | b | fs
    · rfl
    · rfl
    · cases b
      · rfl
      · dsimp only
        rw [if_neg h]
    · rfl

theorem excludeWriteNT_ne (p : JVal) {k : String} (h : k ≠ "data-gsap-exclude") :
    excludeWriteNT p k = none := by
  unfold excludeWriteNT
  rcases jsGet p "exclude" with _ | v
  · rfl
  · dsimp only
    by_cases ht : jsTruthy v
    · rw [if_pos ht, if_neg h]
    · rw [if_neg ht]

theorem processEntry_attrs_NT (e : Elem) (kv : String × JVal) (k : String)
    (hk : k ≠ "data-gsap-trigger") :
    (processEntry e kv).attrs k = (entryWriteNT kv k).or (e.attrs k) := by
  obtain ⟨k1, v1⟩ := kv
  unfold processEntry entryWriteNT
  dsimp only
  by_cases h1 : k1 = "split"
  · rw [if_pos h1, if_pos (Or.inl h1)]
    rfl
  · by_cases h2 : k1 = "exclude"
    · rw [if_neg h1, if_pos h2, if_pos (Or.inr h2)]
      rfl
    · rw [if_neg h1, if_neg h2, if_neg (not_or.mpr ⟨h1, h2⟩)]
      by_cases h3 : k1 = "trigger" ∧ (e.attrs "data-gsap-trigger").isSome
      · rw [if_pos h3]
        have hb : k1 ∉ breakpoints := by rw [h3.1]; decide
        rw [if_neg hb]
        have hne : k ≠ toDataAttr k1 := by
          rw [h3.1]
          intro hkk
          exact hk (by rw [hkk]; decide)
        rw [if_neg hne]
        rfl
      · rw [if_neg h3]
        by_cases h4 : k1 ∈ breakpoints
        · rw [if_pos h4, if_pos h4]
          rcases v1 with s | q | b | fs
          · rfl
          · rfl
          · rfl
          · exact applyNestedWrites_attrs fs k1 e k
        · rw [if_neg h4, if_neg h4, setAttr_attrs_or]

theorem entriesFold_attrs_NT :
    ∀ (entries : List (String × JVal)) (e : Elem) (k : String), k ≠ "data-gsap-trigger" →
      ((entries.foldl processEntry e).attrs k) = (entriesLastNT entries k).or (e.attrs k) := by
  intro entries
  induction entries with
  | nil => intro e k _; rfl
  | cons kv rest ih =>
    intro e k hk
    have hstep : (kv :: rest).foldl processEntry e = rest.foldl processEntry (processEntry e kv) := rfl
    rw [hstep, ih _ k hk, processEntry_attrs_NT e kv k hk, ← Option.or_assoc]
    rfl

theorem processElem_attrs_NT (p : JVal) (e : Elem) (k : String) (hk : k ≠ "data-gsap-trigger") :
    (processElem p e).attrs k = (presetLastNT p k).or (e.attrs k) := by
  unfold processElem presetLastNT
  rw [entriesFold_attrs_NT _ _ _ hk, excludeStep_attrs, splitStep_attrs]
  simp only [Option.or_assoc]

theorem passElem_attrs_NT (cat : String) (group : JVal) (e : Elem) (k : String)
    (hk : k ≠ "data-gsap-trigger") :
    (passElem cat group e).attrs k = (passWriteNT group (e.attrs (catAttr cat)) k).or (e.attrs k) := by
  cases hA : e.attrs (catAttr cat) with
  | none => simp [passElem, passWriteNT, hA]
  | some nm =>
    cases hj : jsGet group nm with
    | none => simp [passElem, passWriteNT, hA, hj]
    | some p =>
      by_cases ht : jsTruthy p
      · simp only [passElem, passWriteNT, hA, hj, if_pos ht]
        exact processElem_attrs_NT p e k hk
      · simp [passElem, passWriteNT, hA, hj, ht]

/-! ### Preservation of unwritten attributes -/

theorem processEntry_preserve (e : Elem) (kv : String × JVal) (k : String)
    (h : k ∉ entryTargets kv) : (processEntry e kv).attrs k = e.attrs k := by
  obtain ⟨k1, v1⟩ := kv
  unfold processEntry entryTargets at *
  dsimp only at h ⊢
  by_cases h1 : k1 = "split"
  · rw [if_pos h1]
  · by_cases h2 : k1 = "exclude"
    · rw [if_neg h1, if_pos h2]
    · rw [if_neg h1, if_neg h2]
      rw [if_neg (not_or.mpr ⟨h1, h2⟩)] at h
      by_cases h3 : k1 = "trigger" ∧ (e.attrs "data-gsap-trigger").isSome
      · rw [if_pos h3]
      · rw [if_neg h3]
        by_cases h4 : k1 ∈ breakpoints
        · rw [if_pos h4]
          rw [if_pos h4] at h
          rcases v1 with s | q | b | fs
          · rfl
          · rfl
          · rfl
          · rw [applyNestedWrites_attrs,
                lastNested_eq_none fs k1 k
                  (fun bkv hb heq => h (List.mem_map.mpr ⟨bkv, hb, heq.symm⟩))]
            rfl
        · rw [if_neg h4]
          rw [if_neg h4] at h
          rw [setAttr_attrs, if_neg (by simpa using h)]

theorem entriesFold_preserve :
    ∀ (entries : List (String × JVal)) (e : Elem) (k : String),
      (∀ kv ∈ entries, k ∉ entryTargets kv) →
      ((entries.foldl processEntry e).attrs k) = e.attrs k := by
  intro entries
  induction entries with
  | nil => intro e k _; rfl
  | cons kv rest ih =>
    intro e k h
    have hstep : (kv :: rest).foldl processEntry e = rest.foldl processEntry (processEntry e kv) := rfl
    rw [hstep, ih _ k (fun x hx => h x (List.mem_cons.mpr (Or.inr hx))),
        processEntry_preserve e kv k (h kv (List.mem_cons.mpr (Or.inl rfl)))]

theorem processElem_preserve (p : JVal) (e : Elem) (k : String) (h : k ∉ writeTargets p) :
    (processElem p e).attrs k = e.attrs k := by
  simp only [writeTargets, List.mem_cons, not_or] at h
  obtain ⟨h1, h2, h3⟩ := h
  unfold processElem
  rw [entriesFold_preserve _ _ _ (fun kv hkv hmem => h3 (List.mem_flatMap.mpr ⟨kv, hkv, hmem⟩)),
      excludeStep_attrs, excludeWriteNT_ne p h2, splitStep_attrs, splitWriteNT_ne p h1]
  rfl

theorem jsGet_targets_subset {g : JVal} {nm : String} {p : JVal} (h : jsGet g nm = some p)
    {k : String} (hk : k ∉ groupTargets g) : k ∉ writeTargets p := by
  intro hkp
  apply hk
  rcases g with s | q | b | fs
  · simp [jsGet] at h
  · simp [jsGet] at h
  · simp [jsGet] at h
  · unfold jsGet lookupField at h
    dsimp only at h
    rcases hf : fs.find? (fun kv => kv.1 == nm) with _ | kv
    · rw [hf] at h
      simp at h
    · rw [hf] at h
      simp only [Option.map_some'] at h
      have hm := List.mem_of_find?_eq_some hf
      exact List.mem_flatMap.mpr ⟨kv, by simpa [jsEntries] using hm, by rw [Option.some_inj] at h; rw [h]; exact hkp⟩

theorem passElem_preserve (cat : String) (group : JVal) (e : Elem) (k : String)
    (h : k ∉ groupTargets group) : (passElem cat group e).attrs k = e.attrs k := by
  cases hA : e.attrs (catAttr cat) with
  | none => simp [passElem, hA]
  | some nm =>
    cases hj : jsGet group nm with
    | none => simp [passElem, hA, hj]
    | some p =>
      by_cases ht : jsTruthy p
      · simp only [passElem, hA, hj, if_pos ht]
        exact processElem_preserve p e k (jsGet_targets_subset hj h)
      · simp [passElem, hA, hj, ht]

theorem elemRun_preserve :
    ∀ (ps : List (String × JVal)) (e : Elem) (k : String),
      (∀ cg ∈ ps, k ∉ groupTargets cg.2) → (elemRun ps e).attrs k = e.attrs k := by
  intro ps
  induction ps with
  | nil => intro e k _; rfl
  | cons cg rest ih =>
    intro e k h
    have hstep : elemRun (cg :: rest) e = elemRun rest (passElem cg.1 cg.2 e) := rfl
    rw [hstep, ih _ k (fun x hx => h x (List.mem_cons.mpr (Or.inr hx))),
        passElem_preserve _ _ _ _ (h cg (List.mem_cons.mpr (Or.inl rfl)))]

/-! ### The trigger attribute: written at most once, never overwritten -/

theorem lastNested_trigger (fs : List (String × JVal)) (bp : String) :
    lastNested fs bp "data-gsap-trigger" = none :=
  lastNested_eq_none fs bp _ (fun bkv _ heq => toDataAttr_append_ne_trigger bkv.1 bp heq.symm)

theorem processEntry_trig_some (e : Elem) (kv : String × JVal) (v : String)
    (h : e.attrs "data-gsap-trigger" = some v) :
    (processEntry e kv).attrs "data-gsap-trigger" = some v := by
  obtain ⟨k1, v1⟩ := kv
  unfold processEntry
  dsimp only
  by_cases h1 : k1 = "split"
  · rw [if_pos h1, h]
  · by_cases h2 : k1 = "exclude"
    · rw [if_neg h1, if_pos h2, h]
    · rw [if_neg h1, if_neg h2]
      by_cases h3 : k1 = "trigger" ∧ (e.attrs "data-gsap-trigger").isSome
      · rw [if_pos h3, h]
      · rw [if_neg h3]
        by_cases h4 : k1 ∈ breakpoints
        · rw [if_pos h4]
          rcases v1 with s | q | b | fs
          · exact h
          · exact h
          · exact h
          · rw [applyNestedWrites_attrs, lastNested_trigger, h]
            rfl
        · rw [if_neg h4, setAttr_attrs]
          have hne : k1 ≠ "trigger" := by
            intro hkk
            exact h3 ⟨hkk, by rw [h]; rfl⟩
          rw [if_neg (fun heq : ("data-gsap-trigger" : String) = toDataAttr k1 =>
            hne (toDataAttr_eq_trigger heq.symm)), h]

theorem processEntry_trig_none (e : Elem) (kv : String × JVal)
    (h : e.attrs "data-gsap-trigger" = none) :
    (processEntry e kv).attrs "data-gsap-trigger" =
      if kv.1 = "trigger" then some (jsToString kv.2) else none := by
  obtain ⟨k1, v1⟩ := kv
  unfold processEntry
  dsimp only
  by_cases h1 : k1 = "split"
  · rw [if_pos h1, if_neg (by rw [h1]; decide), h]
  · by_cases h2 : k1 = "exclude"
    · rw [if_neg h1, if_pos h2, if_neg (by rw [h2]; decide), h]
    · rw [if_neg h1, if_neg h2]
      have h3 : ¬(k1 = "trigger" ∧ (e.attrs "data-gsap-trigger").isSome) := by
        intro hand
        rw [h] at hand
        exact absurd hand.2 (by decide)
      rw [if_neg h3]
      by_cases h4 : k1 ∈ breakpoints
      · have hne : k1 ≠ "trigger" := by
          intro hkk
          rw [hkk] at h4
          exact absurd h4 (by decide)
        rw [if_pos h4, if_neg hne]
        rcases v1 with s | q | b | fs
        · exact h
        · exact h
        · exact h
        · rw [applyNestedWrites_attrs, lastNested_trigger, h]
          rfl
      · rw [if_neg h4, setAttr_attrs]
        by_cases h5 : k1 = "trigger"
        · rw [if_pos h5, if_pos (by rw [h5]; decide)]
        · rw [if_neg h5, if_neg (fun heq : ("data-gsap-trigger" : String) = toDataAttr k1 =>
            h5 (toDataAttr_eq_trigger heq.symm)), h]

theorem entriesFold_trig_some :
    ∀ (entries : List (String × JVal)) (e : Elem) (v : String),
      e.attrs "data-gsap-trigger" = some v →
      ((entries.foldl processEntry e).attrs "data-gsap-trigger") = some v := by
  intro entries
  induction entries with
  | nil => intro e v h; exact h
  | cons kv rest ih =>
    intro e v h
    exact ih (processEntry e kv) v (processEntry_trig_some e kv v h)

theorem entriesFold_trig_none :
    ∀ (entries : List (String × JVal)) (e : Elem),
      e.attrs "data-gsap-trigger" = none →
      ((entries.foldl processEntry e).attrs "data-gsap-trigger") = firstTrigVal entries := by
  intro entries
  induction entries with
  | nil => intro e h; exact h
  | cons kv rest ih =>
    intro e h
    have hstep : (kv :: rest).foldl processEntry e = rest.foldl processEntry (processEntry e kv) := rfl
    rw [hstep]
    by_cases h5 : kv.1 = "trigger"
    · have hw : (processEntry e kv).attrs "data-gsap-trigger" = some (jsToString kv.2) := by
        rw [processEntry_trig_none e kv h, if_pos h5]
      rw [entriesFold_trig_some rest _ _ hw]
      unfold firstTrigVal
      rw [List.find?_cons]
      have : (kv.1 == "trigger") = true := beq_iff_eq.mpr h5
      rw [this]
      rfl
    · have hw : (processEntry e kv).attrs "data-gsap-trigger" = none := by
        rw [processEntry_trig_none e kv h, if_neg h5]
      rw [ih _ hw]
      unfold firstTrigVal
      rw [List.find?_cons]
      have : (kv.1 == "trigger") = false := beq_eq_false_iff_ne.mpr h5
      rw [this]

theorem processElem_trig (p : JVal) (e : Elem) :
    (processElem p e).attrs "data-gsap-trigger" =
      (e.attrs "data-gsap-trigger").or (presetTrig p) := by
  have hsplit : (splitStep p e).attrs "data-gsap-trigger" = e.attrs "data-gsap-trigger" := by
    rw [splitStep_attrs, splitWriteNT_ne p (by decide)]
    rfl
  have hexcl : (excludeStep p (splitStep p e)).attrs "data-gsap-trigger" =
      e.attrs "data-gsap-trigger" := by
    rw [excludeStep_attrs, excludeWriteNT_ne p (by decide), Option.none_or, hsplit]
  unfold processElem presetTrig
  cases hA : e.attrs "data-gsap-trigger" with
  | none =>
    rw [entriesFold_trig_none _ _ (by rw [hexcl, hA])]
    rfl
  | some v =>
    rw [entriesFold_trig_some _ _ v (by rw [hexcl, hA])]
    rfl

theorem passElem_trig (cat : String) (group : JVal) (e : Elem) :
    (passElem cat group e).attrs "data-gsap-trigger" =
      (e.attrs "data-gsap-trigger").or (passTrig group (e.attrs (catAttr cat))) := by
  cases hA : e.attrs (catAttr cat) with
  | none =>
    simp only [passElem, passTrig, hA]
    cases e.attrs "data-gsap-trigger" <;> rfl
  | some nm =>
    cases hj : jsGet group nm with
    | none =>
      simp only [passElem, passTrig, hA, hj]
      cases e.attrs "data-gsap-trigger" <;> rfl
    | some p =>
      by_cases ht : jsTruthy p
      · simp only [passElem, passTrig, hA, hj, if_pos ht]
        exact processElem_trig p e
      · simp only [passElem, passTrig, hA, hj, if_neg ht]
        cases e.attrs "data-gsap-trigger" <;> rfl

/-! ### Run-level characterization and idempotence -/

theorem runLastNT_congr :
    ∀ (ps : List (String × JVal)) (f g : String → Option String) (k : String),
      (∀ cg ∈ ps, f (catAttr cg.1) = g (catAttr cg.1)) →
      runLastNT ps f k = runLastNT ps g k := by
  intro ps
  induction ps with
  | nil => intro f g k _; rfl
  | cons cg rest ih =>
    intro f g k h
    show (runLastNT rest f k).or _ = (runLastNT rest g k).or _
    rw [ih f g k (fun x hx => h x (List.mem_cons.mpr (Or.inr hx))),
        h cg (List.mem_cons.mpr (Or.inl rfl))]

theorem runFirstTrig_congr :
    ∀ (ps : List (String × JVal)) (f g : String → Option String),
      (∀ cg ∈ ps, f (catAttr cg.1) = g (catAttr cg.1)) →
      runFirstTrig ps f = runFirstTrig ps g := by
  intro ps
  induction ps with
  | nil => intro f g _; rfl
  | cons cg rest ih =>
    intro f g h
    show (passTrig cg.2 (f (catAttr cg.1))).or _ = (passTrig cg.2 (g (catAttr cg.1))).or _
    rw [ih f g (fun x hx => h x (List.mem_cons.mpr (Or.inr hx))),
        h cg (List.mem_cons.mpr (Or.inl rfl))]

theorem elemRun_attrs_NT :
    ∀ (ps : List (String × JVal)) (e : Elem) (k : String), k ≠ "data-gsap-trigger" →
      ExpanderSafe ps →
      (elemRun ps e).attrs k = (runLastNT ps e.attrs k).or (e.attrs k) := by
  intro ps
  induction ps with
  | nil => intro e k _ _; rfl
  | cons cg rest ih =>
    intro e k hk H
    have Hrest : ExpanderSafe rest := fun x hx y hy =>
      H x (List.mem_cons.mpr (Or.inr hx)) y (List.mem_cons.mpr (Or.inr hy))
    have hstep : elemRun (cg :: rest) e = elemRun rest (passElem cg.1 cg.2 e) := rfl
    have hcat : ∀ x ∈ rest,
        (passElem cg.1 cg.2 e).attrs (catAttr x.1) = e.attrs (catAttr x.1) := by
      intro x hx
      exact passElem_preserve cg.1 cg.2 e (catAttr x.1)
        (H x (List.mem_cons.mpr (Or.inr hx)) cg (List.mem_cons.mpr (Or.inl rfl)))
    rw [hstep, ih _ k hk Hrest,
        runLastNT_congr rest _ e.attrs k hcat,
        passElem_attrs_NT cg.1 cg.2 e k hk, ← Option.or_assoc]
    rfl

theorem elemRun_trig :
    ∀ (ps : List (String × JVal)) (e : Elem), ExpanderSafe ps →
      (elemRun ps e).attrs "data-gsap-trigger" =
        (e.attrs "data-gsap-trigger").or (runFirstTrig ps e.attrs) := by
  intro ps
  induction ps with
  | nil =>
    intro e _
    show e.attrs "data-gsap-trigger" = (e.attrs "data-gsap-trigger").or none
    rw [Option.or_none]
  | cons cg rest ih =>
    intro e H
    have Hrest : ExpanderSafe rest := fun x hx y hy =>
      H x (List.mem_cons.mpr (Or.inr hx)) y (List.mem_cons.mpr (Or.inr hy))
    have hstep : elemRun (cg :: rest) e = elemRun rest (passElem cg.1 cg.2 e) := rfl
    have hcat : ∀ x ∈ rest,
        (passElem cg.1 cg.2 e).attrs (catAttr x.1) = e.attrs (catAttr x.1) := by
      intro x hx
      exact passElem_preserve cg.1 cg.2 e (catAttr x.1)
        (H x (List.mem_cons.mpr (Or.inr hx)) cg (List.mem_cons.mpr (Or.inl rfl)))
    rw [hstep, ih _ Hrest, runFirstTrig_congr rest _ e.attrs hcat,
        passElem_trig cg.1 cg.2 e, Option.or_assoc]
    rfl

theorem elemRun_idem (ps : List (String × JVal)) (e : Elem) (H : ExpanderSafe ps) :
    elemRun ps (elemRun ps e) = elemRun ps e := by
  have hcat : ∀ x ∈ ps, (elemRun ps e).attrs (catAttr x.1) = e.attrs (catAttr x.1) := by
    intro x hx
    exact elemRun_preserve ps e (catAttr x.1) (fun y hy => H x hx y hy)
  apply Elem.ext_attrs
  funext k
  by_cases hk : k = "data-gsap-trigger"
  · subst hk
    rw [elemRun_trig ps (elemRun ps e) H, elemRun_trig ps e H,
        runFirstTrig_congr ps _ e.attrs hcat, Option.or_assoc, Option.or_self]
  · rw [elemRun_attrs_NT ps (elemRun ps e) k hk H, elemRun_attrs_NT ps e k hk H,
        runLastNT_congr ps _ e.attrs k hcat, ← Option.or_assoc, Option.or_self]

theorem runExpander_eq_map :
    ∀ (doc : List (String × JVal)) (dom : List Elem),
      runExpander doc dom = dom.map (elemRun doc) := by
  intro doc
  induction doc with
  | nil =>
    intro dom
    show dom = dom.map (fun e => e)
    rw [List.map_id']
  | cons cg rest ih =>
    intro dom
    have hstep : runExpander (cg :: rest) dom =
        runExpander rest (dom.map (passElem cg.1 cg.2)) := rfl
    rw [hstep, ih, List.map_map]
    rfl

/-! ### Claim theorems -/

/-- C8: for every non-negative integer viewport width exactly one of the four
breakpoint ranges contains the width, the classification loop of
`getCurrentBreakpoint` finds exactly that breakpoint (so the defensive
`desktop` fallback is unreachable), and `getCurrentBreakpoint` with an empty
memo returns its name. -/
theorem C8_breakpoint_partition (w : ℕ) :
    ∃ b : Bp, computeBp w = some b ∧ inRangeB b w = true ∧
      (∀ b2 : Bp, inRangeB b2 w = true → b2 = b) ∧
      (getCurrentBreakpoint w RState.initial).1 = b := by
  have regions : w ≤ 479 ∨ (480 ≤ w ∧ w ≤ 767) ∨ (768 ≤ w ∧ w ≤ 991) ∨ 992 ≤ w := by omega
  rcases regions with h | h | h | h
  · have hd : inRangeB .desktop w = false := by simp [inRangeB, BREAKPOINTS]; omega
    have ht : inRangeB .tablet w = false := by simp [inRangeB, BREAKPOINTS]; omega
    have hml : inRangeB .mobileL w = false := by simp [inRangeB, BREAKPOINTS]; omega
    have hmp : inRangeB .mobileP w = true := by simp [inRangeB, BREAKPOINTS]; omega
    have hc : computeBp w = some .mobileP := by
      simp [computeBp, bpEntriesOrder, List.find?_cons, hd, ht, hml, hmp]
    exact ⟨.mobileP, hc, hmp, by intro b2 hb2; cases b2 <;> simp_all,
      by simp [getCurrentBreakpoint, RState.initial, hc]⟩
  · have hd : inRangeB .desktop w = false := by simp [inRangeB, BREAKPOINTS]; omega
    have ht : inRangeB .tablet w = false := by simp [inRangeB, BREAKPOINTS]; omega
    have hml : inRangeB .mobileL w = true := by simp [inRangeB, BREAKPOINTS]; omega
    have hmp : inRangeB .mobileP w = false := by simp [inRangeB, BREAKPOINTS]; omega
    have hc : computeBp w = some .mobileL := by
      simp [computeBp, bpEntriesOrder, List.find?_cons, hd, ht, hml, hmp]
    exact ⟨.mobileL, hc, hml, by intro b2 hb2; cases b2 <;> simp_all,
      by simp [getCurrentBreakpoint, RState.initial, hc]⟩
  · have hd : inRangeB .desktop w = false := by simp [inRangeB, BREAKPOINTS]; omega
    have ht : inRangeB .tablet w = true := by simp [inRangeB, BREAKPOINTS]; omega
    have hml : inRangeB .mobileL w = false := by simp [inRangeB, BREAKPOINTS]; omega
    have hmp : inRangeB .mobileP w = false := by simp [inRangeB, BREAKPOINTS]; omega
    have hc : computeBp w = some .tablet := by
      simp [computeBp, bpEntriesOrder, List.find?_cons, hd, ht, hml, hmp]
    exact ⟨.tablet, hc, ht, by intro b2 hb2; cases b2 <;> simp_all,
      by simp [getCurrentBreakpoint, RState.initial, hc]⟩
  · have hd : inRangeB .desktop w = true := by simp [inRangeB, BREAKPOINTS]; omega
    have ht : inRangeB .tablet w = false := by simp [inRangeB, BREAKPOINTS]; omega
    have hml : inRangeB .mobileL w = false := by simp [inRangeB, BREAKPOINTS]; omega
    have hmp : inRangeB .mobileP w = false := by simp [inRangeB, BREAKPOINTS]; omega
    have hc : computeBp w = some .desktop := by
      simp [computeBp, bpEntriesOrder, List.find?_cons, hd, ht, hml, hmp]
    exact ⟨.desktop, hc, hd, by intro b2 hb2; cases b2 <;> simp_all,
      by simp [getCurrentBreakpoint, RState.initial, hc]⟩

/-- C8 witness: at the concrete width 650 the unique containing breakpoint
is `mobile-l`. -/
theorem C8_breakpoint_partition_witness :
    computeBp 650 = some Bp.mobileL ∧ inRangeB Bp.mobileL 650 = true := by
  obtain ⟨b, h1, h2, h3, _⟩ := C8_breakpoint_partition 650
  have hb : Bp.mobileL = b := h3 Bp.mobileL (by decide)
  exact ⟨hb ▸ h1, hb ▸ h2⟩

/-- C1: the resize settle handler never invalidates anything, because
`getCurrentBreakpoint` returns the memoized breakpoint instead of
recomputing from the width. Starting from the state set up at a desktop
width (memo `desktop`, one cache entry), a resize to the tablet width 800
followed by the settle delay leaves the breakpoint `desktop`, keeps the
cache entry, and never calls `ScrollTrigger.refresh` — although
reclassifying the width 800 yields `tablet` ≠ `desktop`. The orientation
handler likewise re-reads only the memo. This contradicts both the spec and
the handler's own comments, which say the breakpoint is recomputed and the
cache cleared on a change. -/
theorem C1_resize_never_invalidates :
    (resizeSettle 800 ⟨some .desktop,
        fun e k => if e = 0 ∧ k = "start-y_desktop" then some (.num 5) else none⟩).2 = false ∧
    (resizeSettle 800 ⟨some .desktop,
        fun e k => if e = 0 ∧ k = "start-y_desktop" then some (.num 5) else none⟩).1.currentBreakpoint
      = some .desktop ∧
    (resizeSettle 800 ⟨some .desktop,
        fun e k => if e = 0 ∧ k = "start-y_desktop" then some (.num 5) else none⟩).1.cache
        0 "start-y_desktop" = some (.num 5) ∧
    computeBp 800 = some .tablet ∧ Bp.tablet ≠ Bp.desktop ∧
    (orientationSettle 800 ⟨some .desktop, fun _ _ => none⟩).1.currentBreakpoint
      = some .desktop := by
  decide

/-- C5: expanding the preset document
`view.fadeUp = (up true, start-y 40, tablet.start-y 20)` over an element
tagged `data-gsap-view="fadeUp"` and then resolving `start-y` yields the
number 20 while `tablet` is active and the number 40 while `desktop` is
active (the nested breakpoint key becomes the suffixed attribute
`data-gsap-start-y-tablet`, which the resolver prefers at `tablet`). -/
theorem C5_preset_endToEnd :
    (getResponsiveValue 800 0 ((runExpander presetDocC5 [elemC5]).headI.attrs) "start-y"
        (.num 0) ⟨some .tablet, fun _ _ => none⟩).1 = .num 20 ∧
    (getResponsiveValue 1200 0 ((runExpander presetDocC5 [elemC5]).headI.attrs) "start-y"
        (.num 0) ⟨some .desktop, fun _ _ => none⟩).1 = .num 40 := by
  decide

theorem bpName_inj : ∀ {b1 b2 : Bp}, bpName b1 = bpName b2 → b1 = b2 := by
  intro b1 b2 h
  cases b1 <;> cases b2 <;> first | rfl | exact absurd h (by decide)

/-- C2: a cache entry written under breakpoint `B1` never influences (and in
particular is never returned by) a `getResponsiveValue` call made while a
different breakpoint `B2` is active: cache keys carry the breakpoint name,
and the lookup consults only the active breakpoint's key. -/
theorem C2_no_stale_breakpoint_reads (B1 B2 : Bp) (hne : B1 ≠ B2) (s : RState)
    (hbp : s.currentBreakpoint = some B2) (w eid : ℕ) (attrs : String → Option String)
    (p : String) (d v : JSValue) :
    (getResponsiveValue w eid attrs p d (cacheSet s eid (p ++ "_" ++ bpName B1) v)).1 =
      (getResponsiveValue w eid attrs p d s).1 := by
  have hkey : ¬(p ++ "_" ++ bpName B2 = p ++ "_" ++ bpName B1) := by
    intro he
    apply hne
    have hd := congrArg String.data he
    rw [String.data_append, String.data_append, String.data_append, String.data_append] at hd
    exact (bpName_inj (String.ext (List.append_cancel_left hd))).symm
  have hbp1 : (cacheSet s eid (p ++ "_" ++ bpName B1) v).currentBreakpoint = some B2 := hbp
  simp only [getResponsiveValue, getCurrentBreakpoint, hbp, hbp1]
  simp only [cacheSet]
  rw [if_neg (fun hand => hkey (And.right hand))]
  cases hc : s.cache eid (p ++ "_" ++ bpName B2) with
  | some v2 => rfl
  | none =>
    cases ha : attrs ("data-gsap-" ++ p ++ "-" ++ bpName B2) with
    | some bv => rfl
    | none =>
      cases hg : attrs ("data-gsap-" ++ p) with
      | some sv => rfl
      | none => rfl

/-- C2 witness: a value cached under `desktop` does not affect a lookup at
the active breakpoint `tablet`. -/
theorem C2_no_stale_breakpoint_reads_witness :
    (getResponsiveValue 800 0 (fun _ => none) "start-y" (.num 1)
        (cacheSet ⟨some .tablet, fun _ _ => none⟩ 0 ("start-y" ++ "_" ++ bpName .desktop)
          (.num 99))).1 =
      (getResponsiveValue 800 0 (fun _ => none) "start-y" (.num 1)
        ⟨some .tablet, fun _ _ => none⟩).1 :=
  C2_no_stale_breakpoint_reads .desktop .tablet (by decide) _ rfl 800 0 _ "start-y"
    (.num 1) (.num 99)

/-- C10: for a parameter matching no breakpoint-specific and no generic
attribute, the first `getResponsiveValue` call at a breakpoint returns and
caches its caller-supplied default, and a later call for the same
(element, parameter, breakpoint) returns that first default even when it
supplies a different default. -/
theorem C10_default_cached (w eid : ℕ) (attrs : String → Option String) (p : String)
    (bp : Bp) (s : RState) (d1 d2 : JSValue)
    (hbp : s.currentBreakpoint = some bp)
    (hmiss : s.cache eid (p ++ "_" ++ bpName bp) = none)
    (hbpattr : attrs ("data-gsap-" ++ p ++ "-" ++ bpName bp) = none)
    (hgen : attrs ("data-gsap-" ++ p) = none) :
    (getResponsiveValue w eid attrs p d1 s).1 = d1 ∧
    (getResponsiveValue w eid attrs p d1 s).2.cache eid (p ++ "_" ++ bpName bp) = some d1 ∧
    (getResponsiveValue w eid attrs p d2 ((getResponsiveValue w eid attrs p d1 s).2)).1 = d1 := by
  have h1 : getResponsiveValue w eid attrs p d1 s =
      (d1, cacheSet s eid (p ++ "_" ++ bpName bp) d1) := by
    simp only [getResponsiveValue, getCurrentBreakpoint, hbp, hmiss, hbpattr, hgen]
  have hbp2 : (cacheSet s eid (p ++ "_" ++ bpName bp) d1).currentBreakpoint = some bp := hbp
  have hhit : (cacheSet s eid (p ++ "_" ++ bpName bp) d1).cache eid
      (p ++ "_" ++ bpName bp) = some d1 := by
    simp [cacheSet]
  refine ⟨by rw [h1], by rw [h1]; exact hhit, ?_⟩
  rw [h1]
  simp only [getResponsiveValue, getCurrentBreakpoint, hbp2, hhit]

/-- C10 witness: first call caches the default 7; a second call supplying 9
still returns 7. -/
theorem C10_default_cached_witness :
    (getResponsiveValue 800 0 (fun _ => none) "start-y" (.num 7)
        ⟨some .tablet, fun _ _ => none⟩).1 = .num 7 ∧
    (getResponsiveValue 800 0 (fun _ => none) "start-y" (.num 7)
        ⟨some .tablet, fun _ _ => none⟩).2.cache 0 ("start-y" ++ "_" ++ bpName .tablet)
      = some (.num 7) ∧
    (getResponsiveValue 800 0 (fun _ => none) "start-y" (.num 9)
        ((getResponsiveValue 800 0 (fun _ => none) "start-y" (.num 7)
          ⟨some .tablet, fun _ _ => none⟩).2)).1 = .num 7 :=
  C10_default_cached 800 0 (fun _ => none) "start-y" .tablet
    ⟨some .tablet, fun _ _ => none⟩ (.num 7) (.num 9) rfl rfl rfl rfl

/-- C4 counterexample: the claim quantifies over every default value, but a
call whose (element, parameter, breakpoint) was already resolved ignores its
own default: with both attributes absent, a first call supplying 1 caches 1,
and a second call supplying 2 returns 1, not its caller-supplied default 2. -/
theorem C4_counterexample :
    (getResponsiveValue 800 0 (fun _ => none) "start-y" (.num 2)
        ((getResponsiveValue 800 0 (fun _ => none) "start-y" (.num 1)
          ⟨some .tablet, fun _ _ => none⟩).2)).1 = .num 1 ∧
    JSValue.num 1 ≠ JSValue.num 2 := by
  decide

/-- C4 amended: on a cache miss — i.e. on the first resolution of the
(element, parameter, breakpoint) triple — `getResponsiveValue` resolves by
the total deterministic priority: the breakpoint-specific attribute wins
over the generic attribute, which wins over the caller-supplied default. -/
theorem C4_priority_on_miss (w eid : ℕ) (attrs : String → Option String) (p : String)
    (bp : Bp) (s : RState) (d : JSValue)
    (hbp : s.currentBreakpoint = some bp)
    (hmiss : s.cache eid (p ++ "_" ++ bpName bp) = none) :
    (∀ v, attrs ("data-gsap-" ++ p ++ "-" ++ bpName bp) = some v →
        (getResponsiveValue w eid attrs p d s).1 = parseAttrValue v) ∧
    (attrs ("data-gsap-" ++ p ++ "-" ++ bpName bp) = none →
      ∀ v, attrs ("data-gsap-" ++ p) = some v →
        (getResponsiveValue w eid attrs p d s).1 = parseAttrValue v) ∧
    (attrs ("data-gsap-" ++ p ++ "-" ++ bpName bp) = none →
      attrs ("data-gsap-" ++ p) = none →
        (getResponsiveValue w eid attrs p d s).1 = d) := by
  refine ⟨?_, ?_, ?_⟩
  · intro v hv
    simp only [getResponsiveValue, getCurrentBreakpoint, hbp, hmiss, hv]
  · intro h0 v hv
    simp only [getResponsiveValue, getCurrentBreakpoint, hbp, hmiss, h0, hv]
  · intro h0 h1
    simp only [getResponsiveValue, getCurrentBreakpoint, hbp, hmiss, h0, h1]

/-- C4 witness: with both attributes present at `tablet`, the
breakpoint-specific value wins. -/
theorem C4_priority_on_miss_witness :
    (getResponsiveValue 800 0
        (fun k => if k = "data-gsap-start-y-tablet" then some "20"
          else if k = "data-gsap-start-y" then some "40" else none)
        "start-y" (.num 0) ⟨some .tablet, fun _ _ => none⟩).1 = parseAttrValue "20" :=
  (C4_priority_on_miss 800 0 _ "start-y" .tablet _ (.num 0) rfl rfl).1 "20" (by decide)

/-- C6: an attribute value read by `getResponsiveValue` that parses under
JavaScript float parsing is returned as that number, and a value that does
not parse is returned as the raw string; concretely `"12.5"` parses to the
number 25/2 = 12.5 and `"top bottom"` does not parse. -/
theorem C6_numeric_parsing (w eid : ℕ) (attrs : String → Option String) (p : String)
    (bp : Bp) (s : RState) (d : JSValue) (v : String)
    (hbp : s.currentBreakpoint = some bp)
    (hmiss : s.cache eid (p ++ "_" ++ bpName bp) = none)
    (hattr : attrs ("data-gsap-" ++ p ++ "-" ++ bpName bp) = some v) :
    (∀ n, jsParseFloat v = some n → (getResponsiveValue w eid attrs p d s).1 = n) ∧
    (jsParseFloat v = none → (getResponsiveValue w eid attrs p d s).1 = .str v) ∧
    jsParseFloat "12.5" = some (.num (mkRat 25 2)) ∧
    jsParseFloat "top bottom" = none := by
  refine ⟨?_, ?_, by decide, by decide⟩
  · intro n hn
    simp only [getResponsiveValue, getCurrentBreakpoint, hbp, hmiss, hattr, parseAttrValue, hn]
  · intro hn
    simp only [getResponsiveValue, getCurrentBreakpoint, hbp, hmiss, hattr, parseAttrValue, hn]

/-- C6 witness: the attribute value `"12.5"` resolves to the number 12.5. -/
theorem C6_numeric_parsing_witness :
    (getResponsiveValue 800 0
        (fun k => if k = "data-gsap-start-y-tablet" then some "12.5" else none)
        "start-y" (.num 0) ⟨some .tablet, fun _ _ => none⟩).1 = .num (mkRat 25 2) :=
  (C6_numeric_parsing 800 0 _ "start-y" .tablet _ (.num 0) "12.5" rfl rfl
    (by decide)).1 (.num (mkRat 25 2)) (by decide)

/-- C3: for an element with a comma-separated `exclude` attribute (and no
legacy per-breakpoint attribute), `shouldExcludeAnimation` reports exclusion
at the current breakpoint exactly when some recognized name in the
whitespace-trimmed list denotes a breakpoint of cascade order at least the
current one's; unrecognized names are ignored. -/
theorem C3_exclusion_cascade (w eid : ℕ) (attrs : String → Option String)
    (bp : Bp) (s : RState) (ex : String)
    (hbp : s.currentBreakpoint = some bp)
    (hmiss : s.cache eid ("exclude_" ++ bpName bp) = none)
    (hex : attrs "data-gsap-exclude" = some ex)
    (hleg : attrs ("data-gsap-exclude-" ++ bpName bp) = none) :
    ((shouldExcludeAnimation w eid attrs s).1 = .bool true ↔
      ∃ nm ∈ (jsSplit ex ',').map jsTrim, ∃ b, bpOfName nm = some b ∧
        (BREAKPOINTS bp).order ≤ (BREAKPOINTS b).order) ∧
    ((shouldExcludeAnimation w eid attrs s).1 = .bool false ↔
      ¬∃ nm ∈ (jsSplit ex ',').map jsTrim, ∃ b, bpOfName nm = some b ∧
        (BREAKPOINTS bp).order ≤ (BREAKPOINTS b).order) := by
  have hres : (shouldExcludeAnimation w eid attrs s).1 =
      .bool (if ex == "" then false else ((jsSplit ex ',').map jsTrim).any fun nm =>
        match bpOfName nm with
        | some b => decide ((BREAKPOINTS b).order ≥ (BREAKPOINTS bp).order)
        | none => false) := by
    simp only [shouldExcludeAnimation, getCurrentBreakpoint, hbp, hmiss, hex, hleg]
    cases hB : (if ex == "" then false else ((jsSplit ex ',').map jsTrim).any fun nm =>
        match bpOfName nm with
        | some b => decide ((BREAKPOINTS b).order ≥ (BREAKPOINTS bp).order)
        | none => false) <;> simp [hB]
  have hiff : (if ex == "" then false else ((jsSplit ex ',').map jsTrim).any fun nm =>
      match bpOfName nm with
      | some b => decide ((BREAKPOINTS b).order ≥ (BREAKPOINTS bp).order)
      | none => false) = true ↔
      ∃ nm ∈ (jsSplit ex ',').map jsTrim, ∃ b, bpOfName nm = some b ∧
        (BREAKPOINTS bp).order ≤ (BREAKPOINTS b).order := by
    by_cases h0 : ex == ""
    · rw [if_pos h0]
      have hexeq : ex = "" := beq_iff_eq.mp h0
      subst hexeq
      simp [show (jsSplit "" ',').map jsTrim = [""] from by decide,
        show bpOfName "" = none from by decide]
    · rw [if_neg h0, List.any_eq_true]
      constructor
      · rintro ⟨nm, hmem, hpred⟩
        refine ⟨nm, hmem, ?_⟩
        cases hbn : bpOfName nm with
        | none =>
          rw [hbn] at hpred
          simp at hpred
        | some b =>
          rw [hbn] at hpred
          simp at hpred
          exact ⟨b, rfl, hpred⟩
      · rintro ⟨nm, hmem, b, hbn, hle⟩
        refine ⟨nm, hmem, ?_⟩
        rw [hbn]
        simpa using hle
  refine ⟨?_, ?_⟩
  · rw [hres]
    simp only [JSValue.bool.injEq]
    exact hiff
  · rw [hres]
    simp only [JSValue.bool.injEq]
    rw [← hiff, Bool.eq_false_iff]

/-- C3 witness: `exclude="tablet"` reports excluded at `tablet` and not
excluded at `desktop`. -/
theorem C3_exclusion_cascade_witness :
    (shouldExcludeAnimation 800 0
        (fun k => if k = "data-gsap-exclude" then some "tablet" else none)
        ⟨some .tablet, fun _ _ => none⟩).1 = .bool true ∧
    (shouldExcludeAnimation 1200 0
        (fun k => if k = "data-gsap-exclude" then some "tablet" else none)
        ⟨some .desktop, fun _ _ => none⟩).1 = .bool false := by
  constructor
  · exact (C3_exclusion_cascade 800 0 _ .tablet _ "tablet" rfl rfl (by decide)
      (by decide)).1.mpr ⟨"tablet", by decide, .tablet, by decide, by decide⟩
  · exact (C3_exclusion_cascade 1200 0 _ .desktop _ "tablet" rfl rfl (by decide)
      (by decide)).2.mpr (by decide)

/-- C9 counterexample: a preset key naming a recognized breakpoint whose
value is not an object writes nothing at all — the claimed directly written
attribute `data-gsap-tablet` is absent after expansion. -/
theorem C9_counterexample :
    (runExpander cexDocC9 [cexElemC9]).map (fun e => e.attrs "data-gsap-tablet") = [none] := by
  decide

/-- C9 amended: for a preset key other than `split`, `exclude` and a
protected `trigger`: a recognized breakpoint key writes attributes only when
its value is an object (one per nested key, with the breakpoint-combined
name); a recognized breakpoint key with a non-object value writes no
attribute at all; a key that is not a recognized breakpoint writes one
attribute directly from the key/value pair. -/
theorem C9_amended_entry_behavior (k : String) (v : JVal) (e : Elem)
    (h1 : k ≠ "split") (h2 : k ≠ "exclude")
    (h3 : ¬(k = "trigger" ∧ (e.attrs "data-gsap-trigger").isSome)) :
    (k ∈ breakpoints → ∀ fs, v = .obj fs →
        processElem (.obj [(k, v)]) e = applyNestedWrites fs k e) ∧
    (k ∈ breakpoints → (∀ fs, v ≠ .obj fs) → processElem (.obj [(k, v)]) e = e) ∧
    (k ∉ breakpoints → processElem (.obj [(k, v)]) e = setAttr (toDataAttr k) (jsToString v) e) := by
  have hsplit : jsGet (.obj [(k, v)]) "split" = none := by
    simp [jsGet, lookupField, List.find?_cons, show (k == "split") = false from
      beq_eq_false_iff_ne.mpr h1]
  have hexcl : jsGet (.obj [(k, v)]) "exclude" = none := by
    simp [jsGet, lookupField, List.find?_cons, show (k == "exclude") = false from
      beq_eq_false_iff_ne.mpr h2]
  have e1 : splitStep (.obj [(k, v)]) e = e := by
    unfold splitStep
    rw [hsplit]
  have e2 : excludeStep (.obj [(k, v)]) e = e := by
    unfold excludeStep
    rw [hexcl]
  have hfold : processElem (.obj [(k, v)]) e = processEntry e (k, v) := by
    unfold processElem
    rw [e1, e2]
    rfl
  refine ⟨?_, ?_, ?_⟩
  · intro hk fs hv
    subst hv
    rw [hfold]
    unfold processEntry
    dsimp only
    rw [if_neg h1, if_neg h2, if_neg h3, if_pos hk]
  · intro hk hv
    rw [hfold]
    unfold processEntry
    dsimp only
    rw [if_neg h1, if_neg h2, if_neg h3, if_pos hk]
    rcases v with s | q | b | fs
    · rfl
    · rfl
    · rfl
    · exact absurd rfl (hv fs)
  · intro hk
    rw [hfold]
    unfold processEntry
    dsimp only
    rw [if_neg h1, if_neg h2, if_neg h3, if_neg hk]

/-- C9 witness: the non-breakpoint key `y` with value 3 writes the single
attribute `data-gsap-y="3"`. -/
theorem C9_amended_entry_behavior_witness :
    processElem (.obj [("y", .num 3)]) ⟨fun _ => none⟩ =
      setAttr (toDataAttr "y") (jsToString (.num 3)) ⟨fun _ => none⟩ :=
  (C9_amended_entry_behavior "y" (.num 3) ⟨fun _ => none⟩ (by decide) (by decide)
    (fun h => absurd h.1 (by decide))).2.2 (by decide)

/-- C7 counterexample: on the document `cexDocC7` the `init` preset of the
second category writes the first category's selector attribute
`data-gsap-view`, so the first run leaves `data-gsap-start-y` unset while a
second run writes it to `"40"` — two runs do not equal one run. -/
theorem C7_counterexample :
    (runExpander cexDocC7 [cexElemC7]).map (fun e => e.attrs "data-gsap-start-y") = [none] ∧
    (runExpander cexDocC7 (runExpander cexDocC7 [cexElemC7])).map
      (fun e => e.attrs "data-gsap-start-y") = [some "40"] := by
  decide

/-- C7 amended: provided no preset of the document can write a
category-selector attribute of the document (`ExpanderSafe` — exactly the
condition the counterexample violates), running the preset expander twice
against an unchanged DOM and preset document produces the same final
attribute sets as running it once; the `trigger` attribute, being written at
most once and protected afterwards, never changes value between runs. -/
theorem C7_expander_idempotent (doc : List (String × JVal)) (dom : List Elem)
    (H : ExpanderSafe doc) :
    runExpander doc (runExpander doc dom) = runExpander doc dom := by
  rw [runExpander_eq_map, runExpander_eq_map, List.map_map]
  exact List.map_congr_left (fun e _ => elemRun_idem doc e H)

/-- C7 witness: the end-to-end document of the C5 scenario is
expander-safe, and running its expansion twice equals running it once. -/
theorem C7_expander_idempotent_witness :
    runExpander presetDocC5 (runExpander presetDocC5 [elemC5]) =
      runExpander presetDocC5 [elemC5] :=
  C7_expander_idempotent presetDocC5 [elemC5] (by decide)
